import Mathlib

/-!
Verification development for `utilities.py`: the `endow` composer, the
`debug` instrumentation attachment and the `remember` memoization
attachment.  The Python code is embedded shallowly: byte strings are
`List Nat` (byte values), Python objects that the keying serializer
handles structurally are the inductive `PyObj`, filesystem state is an
explicit map from paths to contents, and the process-wide numpy
rendering-suppression toggle is an explicit boolean in a `World` record.
-/

/-- Python argument values, restricted to the kinds `remember.to_bytes`
handles structurally (its float / ndarray / pickle-fallback branches are
not needed by any claim).  Dict keys are text, as in every dict the
repository builds; `dict` carries the insertion-ordered item list and
`set` an element list. -/
inductive PyObj where
  | str (s : String)
  | int (n : Int)
  | bool (b : Bool)
  | list (xs : List PyObj)
  | dict (kvs : List (String × PyObj))
  | set (xs : List PyObj)

/-- UTF-8 text as its codepoint sequence.  On the byte strings compared
and sorted by `to_bytes`, lexicographic order on codepoints coincides
with lexicographic order on UTF-8 bytes. -/
def strBytes (s : String) : List Nat := s.data.map Char.toNat

/-- Lexicographic order on byte strings, as Python compares `bytes`. -/
def lexLe : List Nat → List Nat → Bool
  | [], _ => true
  | _ :: _, [] => false
  | a :: as, b :: bs => if a < b then true else if b < a then false else lexLe as bs

/-- Stable insertion: place `a` before the first element `b` with `le a b`. -/
def insertLe (le : α → α → Bool) (a : α) : List α → List α
  | [] => [a]
  | b :: bs => if le a b then a :: b :: bs else b :: insertLe le a bs

/-- Stable insertion sort, modelling the stable Python `sorted`. -/
def sortLe (le : α → α → Bool) : List α → List α
  | [] => []
  | a :: as => insertLe le a (sortLe le as)

/-- Order on dict items: Python sorts `obj.items()`, which compares the
(text) keys first; keys of a dict are unique, so the item order is
decided by the keys alone. -/
def itemLe (a b : String × List Nat) : Bool := lexLe (strBytes a.1) (strBytes b.1)

mutual
/-- Embedding of `remember.to_bytes` (src/utilities.py:276-302).
Scalars become `str(obj).encode("utf-8")`; lists join the recursive
encodings with `,` inside `[`/`]`; dict items are sorted (by key, see
`itemLe`) and joined as `key:value` inside braces; set element encodings
are sorted and joined inside braces.  The dict branch of the source
sorts the items and then encodes each; here each item is encoded and
the encoded items are sorted by their (unchanged) key, which yields the
identical list because the sort is stable and decided by the key. -/
def to_bytes : PyObj → List Nat
  | .str s => strBytes s
  | .int n => strBytes (toString n)
  | .bool b => strBytes (if b then "True" else "False")
  | .list xs => [91] ++ (joinSep (to_bytes_all xs)) ++ [93]
  | .dict kvs =>
      [123] ++ (joinSep ((sortLe itemLe (to_bytes_pairs kvs)).map
        (fun p => strBytes p.1 ++ [58] ++ p.2))) ++ [125]
  | .set xs => [123] ++ (joinSep (sortLe lexLe (to_bytes_all xs))) ++ [125]

/-- Recursive encodings of a list of objects (`map(self.to_bytes, obj)`). -/
def to_bytes_all : List PyObj → List (List Nat)
  | [] => []
  | x :: xs => to_bytes x :: to_bytes_all xs

/-- Dict items with the value encoded and the key kept for sorting. -/
def to_bytes_pairs : List (String × PyObj) → List (String × List Nat)
  | [] => []
  | (k, v) :: kvs => (k, to_bytes v) :: to_bytes_pairs kvs

/-- Byte strings joined by `b","` (`b",".join(...)`). -/
def joinSep : List (List Nat) → List Nat
  | [] => []
  | [b] => b
  | b :: bs => b ++ [44] ++ joinSep bs
end

example : to_bytes (.list [.int 1, .int 2]) = strBytes "[1,2]" := rfl
example : to_bytes (.dict [("b", .int 2), ("a", .int 1)]) = strBytes "\x7ba:1,b:2\x7d" := rfl
example : to_bytes (.bool true) = to_bytes (.str "True") := rfl
example : to_bytes (.set [.int 2, .int 1]) = strBytes "\x7b1,2\x7d" := rfl

/-! ## The composer `endow` (src/utilities.py:50-70) -/

/-- Members of the composed wrapper: members the wrapper object already
carries before the attachment loop runs, and members placed by `endow`. -/
inductive Member (Attr : Type) where
  | builtin
  | user (a : Attr)

/-- Attachment values, mirroring the three branches of the loop in
`endow`: a `Bundle` (constructor plus explicit configuration, of which
the bound `main` is attached), a bare callable (instantiated with
defaults, `main` attached), or a literal attached verbatim. -/
inductive AttrValue (Args Val Err Attr : Type) where
  | bundleV (method : (Args → Except Err Val) → String → List PyObj →
      List (String × PyObj) → Attr) (bargs : List PyObj) (bkwargs : List (String × PyObj))
  | callableV (value : (Args → Except Err Val) → String → Attr)
  | literal (a : Attr)

/-- Composed callable: the delegating call plus a member table. -/
structure Wrapper (Args Val Err Attr : Type) where
  call : Args → Except Err Val
  members : String → Option (Member Attr)

/-- Members a fresh function object already has before `setattr` runs
(the reserved members of the wrapper). -/
def function_members : List String :=
  ["__name__", "__qualname__", "__doc__", "__dict__", "__module__", "__call__"]

/-- Value bound for one attachment: `instance.main` for the `Bundle` and
callable branches, the literal itself otherwise. -/
def bindAttr (call : Args → Except Err Val) (fname : String) :
    AttrValue Args Val Err Attr → Attr → Attr
  | .bundleV method bargs bkwargs, _ => method call fname bargs bkwargs
  | .callableV value, _ => value call fname
  | .literal a, _ => a

/-- Embedding of `endow` (src/utilities.py:50-70): build the delegating
wrapper, then `setattr` each attachment under its name in order.  The
loop performs no collision check of any kind: `setattr` overwrites
whatever member the name already denotes. -/
def endow (function : Args → Except Err Val) (fname : String)
    (attributes : List (String × AttrValue Args Val Err Attr)) (dflt : Attr) :
    Wrapper Args Val Err Attr :=
  let call : Args → Except Err Val := fun args => function args
  let base : String → Option (Member Attr) :=
    fun k => if k ∈ function_members then some Member.builtin else none
  let members := attributes.foldl
    (fun ms kv => fun k =>
      if k = kv.1 then some (Member.user (bindAttr call fname kv.2 dflt)) else ms k)
    base
  ⟨call, members⟩

/-! ## The instrumentation attachment `debug` (src/utilities.py:129-214) -/

/-- Log records: the start line, the multi-line DONE block (duration
decomposition, rendered inputs and output, optional note) and the
multi-line FAILED block carrying the error trace. -/
inductive LogRecord (Args Val Err : Type) where
  | start (wrapped_name filename : String) (line_number : Nat)
  | done (h m s : ℚ) (args : Args) (out : Val) (debug_msg : Option String)
  | failed (e : Err)

/-- Observable world around an instrumented call: log files on disk,
standard output, and the process-wide numpy rendering-suppression
toggle (`numpy.set_printoptions` / `set_string_function` state). -/
structure World (Args Val Err : Type) where
  files : String → Option (List (LogRecord Args Val Err))
  stdout : List (LogRecord Args Val Err)
  np_suppressed : Bool

/-- State of a `debug` attachment instance (src/utilities.py:131-135). -/
structure debug (Args Val Err : Type) where
  callback : Args → Except Err Val
  wrapped_name : String
  log_file : Option String
  no_arrays : Bool
  reset_when_lines : Nat

/-- Embedding of `debug.__init__` (src/utilities.py:131-135): stores the
two configuration keywords and fixes `reset_when_lines` to `10000`. -/
def debug.init (callback : Args → Except Err Val) (wrapped_name : String)
    (log_file : Option String) (no_arrays : Bool) : debug Args Val Err :=
  ⟨callback, wrapped_name, log_file, no_arrays, 10000⟩

/-- Keyword parameters the `debug` constructor accepts, transcribed from
the signature on src/utilities.py:131. -/
def debug.init_keywords : List String := ["log_file", "no_arrays"]

/-- Embedding of `debug.reset_maybe` (src/utilities.py:205-214): when the
log file exists, count its lines and remove it when the count reaches
`reset_when_lines`.  `main` only calls it with a log file configured. -/
def debug.reset_maybe (d : debug Args Val Err)
    (files : String → Option (List (LogRecord Args Val Err))) :
    String → Option (List (LogRecord Args Val Err)) :=
  match d.log_file with
  | none => files
  | some f =>
      match files f with
      | none => files
      | some lines =>
          if d.reset_when_lines ≤ lines.length then
            fun p => if p = f then none else files p
          else files

/-- Append one record to the log target: `open(log_file, "a")` when a log
file is configured (creating it when absent), `sys.stdout` otherwise. -/
def debug.emit (d : debug Args Val Err) (w : World Args Val Err)
    (r : LogRecord Args Val Err) : World Args Val Err :=
  match d.log_file with
  | some f =>
      { w with files := fun p => if p = f then some (((w.files f).getD []) ++ [r]) else w.files p }
  | none => { w with stdout := w.stdout ++ [r] }

/-- Records currently in the log target of `d`. -/
def debug.target (d : debug Args Val Err) (w : World Args Val Err) :
    List (LogRecord Args Val Err) :=
  match d.log_file with
  | some f => (w.files f).getD []
  | none => w.stdout

/-- Duration decomposition printed by the DONE line, transcribed from
src/utilities.py:169: `h, m, s = dt//3600, (dt-dt//3600)//60,
dt-(dt-dt//3600)//60` (float floor division is `Int.floor` of the
quotient). -/
def debug.hms (dt : ℚ) : ℚ × ℚ × ℚ :=
  let h : ℚ := (⌊dt / 3600⌋ : ℤ)
  let m : ℚ := (⌊(dt - h) / 60⌋ : ℤ)
  let s : ℚ := dt - m
  (h, m, s)

/-- Embedding of `debug.main` (src/utilities.py:137-203).  `filename` and
`line_number` stand for `get_caller_info()`, `dt` for the measured
elapsed wall-clock time.  Control flow of the source: optional log
rotation, start record, optional acquisition of the numpy suppression
mode, then the delegated call inside `try`.  On success the DONE record
is emitted and the result returned from inside the `try` block, so the
suppression epilogue at lines 188-203 is not reached; on failure the
FAILED record is emitted by the `except` block, the epilogue restores
the numpy state, and no value is returned. -/
def debug.main (d : debug Args Val Err) (w0 : World Args Val Err)
    (filename : String) (line_number : Nat) (args : Args)
    (debug_msg : Option String) (dt : ℚ) :
    Option Val × World Args Val Err :=
  let w1 := match d.log_file with
    | some _ => { w0 with files := debug.reset_maybe d w0.files }
    | none => w0
  let w2 := debug.emit d w1 (.start d.wrapped_name filename line_number)
  let w3 := if d.no_arrays then { w2 with np_suppressed := true } else w2
  match d.callback args with
  | .ok out =>
      let p := debug.hms dt
      let w4 := debug.emit d w3 (.done p.1 p.2.1 p.2.2 args out debug_msg)
      (some out, w4)
  | .error e =>
      let w4 := debug.emit d w3 (.failed e)
      let w5 := if d.no_arrays then { w4 with np_suppressed := false } else w4
      (none, w5)

/-! ## The memoization attachment `remember` (src/utilities.py:230-313) -/

/-- Trailing-slash stripping of `cachedir.rstrip("/")`, on the character
sequence of the text. -/
def rstripSlash (s : String) : String := ⟨(s.data.reverse.dropWhile (fun c => c = '/')).reverse⟩

/-- Python slicing `s[:n]`, on the character sequence of the text. -/
def strTake (s : String) (n : Nat) : String := ⟨s.data.take n⟩

/-- State of a `remember` attachment instance (src/utilities.py:232-236). -/
structure remember (Val : Type) where
  callback : List PyObj → List (String × PyObj) → Val
  wrapped_name : String
  path : String
  warn : Bool

/-- Embedding of `remember.__init__` (src/utilities.py:232-236). -/
def remember.init (callback : List PyObj → List (String × PyObj) → Val)
    (wrapped_name : String) (cachedir : String) (warn : Bool) : remember Val :=
  ⟨callback, wrapped_name, rstripSlash cachedir, warn⟩

/-- Python truthiness (`if length`) of the values representable here:
zero, empty text and empty containers are falsy, `False` is falsy. -/
def pyTruthy : PyObj → Bool
  | .str s => !s.data.isEmpty
  | .int n => n != 0
  | .bool b => b
  | .list xs => !xs.isEmpty
  | .dict kvs => !kvs.isEmpty
  | .set xs => !xs.isEmpty

/-- Integer value of an object Python accepts as a slice bound: an int,
or a bool through its int subclassing; anything else is a `TypeError`. -/
def pyIndex : PyObj → Option Int
  | .int n => some n
  | .bool b => some (if b then 1 else 0)
  | _ => none

/-- Python slicing `s[:n]` for an integer bound `n`: a non-negative
bound takes from the front (clamped to the length), a negative bound
counts from the end (clamped at zero). -/
def pySlice (s : String) (n : Int) : String :=
  if 0 ≤ n then ⟨s.data.take n.toNat⟩
  else ⟨s.data.take (s.data.length - (-n).toNat)⟩

/-- Value a call-site kwargs entry named `k` binds to; Python kwargs
carry each key at most once. -/
def kwValue (kwargs : List (String × PyObj)) (k : String) : Option PyObj :=
  (kwargs.find? (fun kv => decide (kv.1 = k))).map (fun kv => kv.2)

/-- Entries a call to `get_cache_id` leaves for its `**kwargs` after the
keyword-only parameters `hash_algo` and `length` capture their
homonymous entries (src/utilities.py:304). -/
def kwRest (kwargs : List (String × PyObj)) : List (String × PyObj) :=
  kwargs.filter (fun kv => decide (¬ (kv.1 = "hash_algo" ∨ kv.1 = "length")))

/-- Embedding of `remember.get_cache_id` (src/utilities.py:304-313) as
invoked with a caller kwargs dict: the signature
`(*args, hash_algo="sha1", length=6, **kwargs)` binds the kwargs
entries named `hash_algo` and `length` to those keyword-only parameters
(defaults otherwise) and only the rest reaches `**kwargs`.  The digest
of `to_bytes(args)` followed by `to_bytes(kwargs)` is the abstract
`hashHex`, applied to the algorithm name (a non-text `hash_algo` is a
`TypeError` from `hashlib.new`, modelled as `none`; the registry of
algorithm names is abstracted away).  The hex digest is truncated by
`full_hash[:length] if length else full_hash`: a falsy `length` keeps
the full digest, a truthy non-integer one is a `TypeError` from the
slice. -/
def remember.get_cache_id (hashHex : String → List Nat → String)
    (args : List PyObj) (kwargs : List (String × PyObj)) : Option String :=
  let hash_algo := (kwValue kwargs "hash_algo").getD (.str "sha1")
  let length := (kwValue kwargs "length").getD (.int 6)
  let rest := kwRest kwargs
  match hash_algo with
  | .str algo =>
      let full_hash := hashHex algo (to_bytes (.list args) ++ to_bytes (.dict rest))
      if pyTruthy length then
        match pyIndex length with
        | some n => some (pySlice full_hash n)
        | none => none
      else some full_hash
  | _ => none

example : remember.get_cache_id (fun _ bs => toString bs.length) [] [("length", .int 0)]
  = some "4" := rfl
example : remember.get_cache_id (fun _ bs => toString bs.length) [] [("length", .str "x")]
  = none := rfl
example : remember.get_cache_id (fun _ bs => toString bs.length) [] [("hash_algo", .int 3)]
  = none := rfl
example : remember.get_cache_id (fun a bs => a ++ toString bs.length) []
  [("hash_algo", .str "md5")] = some "md54" := rfl
example : remember.get_cache_id (fun _ bs => toString bs.length) [] [("x", .int 1)]
  = some "7" := rfl

/-- Embedding of `remember.main` (src/utilities.py:238-274).  The cache
directory is the explicit `store` map from paths to persisted values
(`pickle` round-trips, so a cache file is modelled by the value it
holds); `caller_abspath` stands for
`os.path.abspath(get_caller_info()[0])`.  The outer `Option` is the
exception path: `none` when the derivation of `args_id` raises through
the keyword capture of `get_cache_id` (an ill-typed `hash_algo` or
`length` entry in the kwargs), which in the source propagates out of
`main` before any store access or delegate call.  Otherwise returns the
result, the updated store, and how often the delegate was invoked.  The
advisory `print` warnings are not modelled. -/
def remember.main (r : remember Val) (hashHex : String → List Nat → String)
    (caller_abspath : String) (store : String → Option Val)
    (args : List PyObj) (kwargs : List (String × PyObj))
    (cache_id : Option String) (skip : Bool) :
    Option (Option Val × (String → Option Val) × Nat) :=
  if skip then some (none, store, 0)
  else
    let cid? : Option String := match cache_id with
      | some c => some c
      | none =>
          let args_id? := remember.get_cache_id hashHex args kwargs
          let wrapped_id? := remember.get_cache_id hashHex [.str r.wrapped_name] []
          let filename_id? := remember.get_cache_id hashHex [.str caller_abspath] []
          match filename_id?, wrapped_id?, args_id? with
          | some fid, some wid, some aid => some (fid ++ wid ++ aid)
          | _, _, _ => none
    match cid? with
    | none => none
    | some cid =>
        let cache_path := r.path ++ "/" ++ cid
        match store cache_path with
        | some out => some (some out, store, 0)
        | none =>
            let out := r.callback args kwargs
            some (some out, fun p => if p = cache_path then some out else store p, 1)

/-! ## Order lemmas for the keying serializer -/

theorem lexLe_total (a b : List Nat) : lexLe a b = true ∨ lexLe b a = true := by
  induction a generalizing b with
  | nil => left; rfl
  | cons x xs ih =>
    cases b with
    | nil => right; rfl
    | cons y ys =>
      rcases Nat.lt_trichotomy x y with h | h | h
      · left; simp [lexLe, h]
      · subst h
        rcases ih ys with h2 | h2
        · left; simp [lexLe, h2]
        · right; simp [lexLe, h2]
      · right; simp [lexLe, h]

theorem lexLe_trans (a b c : List Nat) (hab : lexLe a b = true)
    (hbc : lexLe b c = true) : lexLe a c = true := by
  induction a generalizing b c with
  | nil => rfl
  | cons x xs ih =>
    cases b with
    | nil => simp [lexLe] at hab
    | cons y ys =>
      cases c with
      | nil => simp [lexLe] at hbc
      | cons z zs =>
        simp only [lexLe] at hab hbc ⊢
        rcases Nat.lt_trichotomy x y with h1 | h1 | h1
        · rcases Nat.lt_trichotomy y z with h2 | h2 | h2
          · simp [Nat.lt_trans h1 h2]
          · subst h2; simp [h1]
          · simp [h2, Nat.lt_asymm h2] at hbc
        · subst h1
          simp [Nat.lt_irrefl] at hab
          rcases Nat.lt_trichotomy x z with h2 | h2 | h2
          · simp [h2]
          · subst h2
            simp [Nat.lt_irrefl] at hbc ⊢
            exact ih ys zs hab hbc
          · simp [h2, Nat.lt_asymm h2] at hbc
        · simp [h1, Nat.lt_asymm h1] at hab

theorem lexLe_antisymm (a b : List Nat) (hab : lexLe a b = true)
    (hba : lexLe b a = true) : a = b := by
  induction a generalizing b with
  | nil =>
    cases b with
    | nil => rfl
    | cons y ys => simp [lexLe] at hba
  | cons x xs ih =>
    cases b with
    | nil => simp [lexLe] at hab
    | cons y ys =>
      simp only [lexLe] at hab hba
      rcases Nat.lt_trichotomy x y with h1 | h1 | h1
      · simp [h1, Nat.lt_asymm h1] at hba
      · subst h1
        simp [Nat.lt_irrefl] at hab hba
        rw [ih ys hab hba]
      · simp [h1, Nat.lt_asymm h1] at hab

theorem strBytes_injective (s t : String) (h : strBytes s = strBytes t) : s = t := by
  apply String.ext
  have hinj : Function.Injective Char.toNat := by
    intro a b hab
    have := congrArg Char.ofNat hab
    rwa [Char.ofNat_toNat, Char.ofNat_toNat] at this
  exact List.map_injective_iff.2 hinj h

theorem insertLe_perm (le : α → α → Bool) (a : α) (l : List α) :
    (insertLe le a l).Perm (a :: l) := by
  induction l with
  | nil => exact List.Perm.refl _
  | cons b bs ih =>
    by_cases h : le a b = true
    · simp [insertLe, h]
    · simp only [insertLe, h, if_neg, Bool.false_eq_true, if_false]
      exact (ih.cons b).trans (List.Perm.swap a b bs)

theorem sortLe_perm (le : α → α → Bool) (l : List α) : (sortLe le l).Perm l := by
  induction l with
  | nil => exact List.Perm.refl _
  | cons a as ih => exact (insertLe_perm le a (sortLe le as)).trans (ih.cons a)

theorem pairwise_insertLe (le : α → α → Bool)
    (htot : ∀ a b, le a b = true ∨ le b a = true)
    (htrans : ∀ a b c, le a b = true → le b c = true → le a c = true)
    (a : α) (l : List α) (hl : l.Pairwise (fun x y => le x y = true)) :
    (insertLe le a l).Pairwise (fun x y => le x y = true) := by
  induction l with
  | nil => simp [insertLe]
  | cons b bs ih =>
    rcases List.pairwise_cons.1 hl with ⟨hb, hbs⟩
    by_cases h : le a b = true
    · simp only [insertLe, h, if_pos]
      refine List.pairwise_cons.2 ⟨?_, hl⟩
      intro x hx
      rcases List.mem_cons.1 hx with rfl | hx2
      · exact h
      · exact htrans a b x h (hb x hx2)
    · simp only [insertLe, h, if_neg, Bool.false_eq_true, if_false]
      have hba : le b a = true := (htot a b).resolve_left h
      refine List.pairwise_cons.2 ⟨?_, ih hbs⟩
      intro x hx
      rcases List.mem_cons.1 ((insertLe_perm le a bs).mem_iff.1 hx) with rfl | hx2
      · exact hba
      · exact hb x hx2

theorem pairwise_sortLe (le : α → α → Bool)
    (htot : ∀ a b, le a b = true ∨ le b a = true)
    (htrans : ∀ a b c, le a b = true → le b c = true → le a c = true)
    (l : List α) : (sortLe le l).Pairwise (fun x y => le x y = true) := by
  induction l with
  | nil => simp [sortLe]
  | cons a as ih => exact pairwise_insertLe le htot htrans a (sortLe le as) ih

theorem itemLe_total (a b : String × List Nat) : itemLe a b = true ∨ itemLe b a = true :=
  lexLe_total (strBytes a.1) (strBytes b.1)

theorem itemLe_trans (a b c : String × List Nat) (hab : itemLe a b = true)
    (hbc : itemLe b c = true) : itemLe a c = true :=
  lexLe_trans (strBytes a.1) (strBytes b.1) (strBytes c.1) hab hbc

/-- Sorting byte strings is a function of the multiset: two permuted
lists of encodings have the same sorted form, because `lexLe` is a
total, transitive and antisymmetric order. -/
theorem sortLe_lexLe_eq_of_perm (l1 l2 : List (List Nat)) (h : l1.Perm l2) :
    sortLe lexLe l1 = sortLe lexLe l2 := by
  have hanti : IsAntisymm (List Nat) (fun x y => lexLe x y = true) :=
    ⟨fun a b hab hba => lexLe_antisymm a b hab hba⟩
  exact @List.eq_of_perm_of_sorted _ _ hanti _ _
    ((sortLe_perm lexLe l1).trans (h.trans (sortLe_perm lexLe l2).symm))
    (pairwise_sortLe lexLe lexLe_total lexLe_trans l1)
    (pairwise_sortLe lexLe lexLe_total lexLe_trans l2)

/-- Sorting dict items by key is a function of the item multiset when the
keys are distinct: the key order is total and transitive, and with no
key repeated it is antisymmetric on the items present. -/
theorem sortLe_itemLe_eq_of_perm (l1 l2 : List (String × List Nat))
    (h : l1.Perm l2) (hnd : (l1.map Prod.fst).Nodup) :
    sortLe itemLe l1 = sortLe itemLe l2 := by
  have hne1 : l1.Pairwise (fun x y : String × List Nat => x.1 ≠ y.1) :=
    (List.pairwise_map).1 hnd
  have hperm : (sortLe itemLe l1).Perm (sortLe itemLe l2) :=
    (sortLe_perm itemLe l1).trans (h.trans (sortLe_perm itemLe l2).symm)
  have hsym : ∀ {x y : String × List Nat}, x.1 ≠ y.1 → y.1 ≠ x.1 :=
    fun hxy => fun hyx => hxy hyx.symm
  have hneS1 : (sortLe itemLe l1).Pairwise (fun x y : String × List Nat => x.1 ≠ y.1) :=
    ((sortLe_perm itemLe l1).pairwise_iff hsym).2 hne1
  have hneS2 : (sortLe itemLe l2).Pairwise (fun x y : String × List Nat => x.1 ≠ y.1) :=
    ((sortLe_perm itemLe l2).pairwise_iff hsym).2 ((h.pairwise_iff hsym).1 hne1)
  have hanti : IsAntisymm (String × List Nat)
      (fun x y => itemLe x y = true ∧ x.1 ≠ y.1) := by
    refine ⟨fun a b hab hba => ?_⟩
    exact absurd (strBytes_injective a.1 b.1
      (lexLe_antisymm (strBytes a.1) (strBytes b.1) hab.1 hba.1)) hab.2
  exact @List.eq_of_perm_of_sorted _ _ hanti _ _ hperm
    ((pairwise_sortLe itemLe itemLe_total itemLe_trans l1).and hneS1)
    ((pairwise_sortLe itemLe itemLe_total itemLe_trans l2).and hneS2)

theorem to_bytes_all_eq_map (l : List PyObj) : to_bytes_all l = l.map to_bytes := by
  induction l with
  | nil => rfl
  | cons x xs ih => simp [to_bytes_all, ih]

theorem to_bytes_pairs_eq_map (l : List (String × PyObj)) :
    to_bytes_pairs l = l.map (fun kv => (kv.1, to_bytes kv.2)) := by
  induction l with
  | nil => rfl
  | cons kv kvs ih =>
    cases kv with
    | mk k v => simp [to_bytes_pairs, ih]

/-! ## Claims about the keying serialization -/

/-- C5: the keying serialization `to_bytes` is order-insensitive for
mappings and sets — for value-equal dicts (same key/value items, any
insertion order, keys distinct as in every Python dict) and for
value-equal sets (same elements, any order) the encodings agree — and
order-sensitive for sequences: `to_bytes([1,2]) ≠ to_bytes([2,1])`. -/
theorem to_bytes_order_properties :
    (∀ d1 d2 : List (String × PyObj), d1.Perm d2 → (d1.map Prod.fst).Nodup →
      to_bytes (.dict d1) = to_bytes (.dict d2))
    ∧ (∀ s1 s2 : List PyObj, s1.Perm s2 →
      to_bytes (.set s1) = to_bytes (.set s2))
    ∧ to_bytes (.list [.int 1, .int 2]) ≠ to_bytes (.list [.int 2, .int 1]) := by
  refine ⟨?_, ?_, ?_⟩
  · intro d1 d2 hp hnd
    have h1 : sortLe itemLe (to_bytes_pairs d1) = sortLe itemLe (to_bytes_pairs d2) := by
      apply sortLe_itemLe_eq_of_perm
      · rw [to_bytes_pairs_eq_map, to_bytes_pairs_eq_map]
        exact hp.map _
      · rw [to_bytes_pairs_eq_map]
        simpa [List.map_map, Function.comp] using hnd
    simp only [to_bytes, h1]
  · intro s1 s2 hp
    have h1 : sortLe lexLe (to_bytes_all s1) = sortLe lexLe (to_bytes_all s2) := by
      apply sortLe_lexLe_eq_of_perm
      rw [to_bytes_all_eq_map, to_bytes_all_eq_map]
      exact hp.map _
    simp only [to_bytes, h1]
  · decide

/-- Witness for C5 at the concrete inputs of the spec: the two insertion
orders of the mapping `a ↦ 1, b ↦ 2`, a two-element set in both orders,
and the sequences `[1,2]` and `[2,1]`. -/
theorem to_bytes_order_properties_witness :
    to_bytes (.dict [("b", .int 2), ("a", .int 1)])
      = to_bytes (.dict [("a", .int 1), ("b", .int 2)])
    ∧ to_bytes (.set [.str "x", .str "y"]) = to_bytes (.set [.str "y", .str "x"])
    ∧ to_bytes (.list [.int 1, .int 2]) ≠ to_bytes (.list [.int 2, .int 1]) :=
  ⟨to_bytes_order_properties.1 _ _ (List.Perm.swap _ _ _) (by decide),
   to_bytes_order_properties.2.1 _ _ (List.Perm.swap _ _ _),
   to_bytes_order_properties.2.2⟩

/-- C10: scalars are encoded by their textual rendering alone, so
value-unequal arguments of different scalar types can share an encoding
— `to_bytes(True) == to_bytes("True")` and `to_bytes(1) == to_bytes("1")`
— and consequently argument tuples built from them derive the same
truncated digest and hence the same cache key, whatever the digest
function is. -/
theorem to_bytes_scalar_collisions :
    to_bytes (.bool true) = to_bytes (.str "True")
    ∧ to_bytes (.int 1) = to_bytes (.str "1")
    ∧ PyObj.bool true ≠ PyObj.str "True"
    ∧ PyObj.int 1 ≠ PyObj.str "1"
    ∧ ∀ hashHex : String → List Nat → String,
        remember.get_cache_id hashHex [.bool true] []
          = remember.get_cache_id hashHex [.str "True"] []
        ∧ remember.get_cache_id hashHex [.int 1] []
          = remember.get_cache_id hashHex [.str "1"] [] := by
  refine ⟨rfl, rfl, ?_, ?_, ?_⟩
  · intro h
    exact PyObj.noConfusion h
  · intro h
    exact PyObj.noConfusion h
  · intro hashHex
    exact ⟨rfl, rfl⟩

/-! ## Concrete objects used by witness statements -/

/-- Store with no persisted entry. -/
def noStore : String → Option Nat := fun _ => none

/-- Fixed hex digest standing in for the hashing in concrete
evaluations, whatever the algorithm name. -/
def constHash : String → List Nat → String := fun _ _ => "abcdef0123456789"

/-- Digest stub whose hex output records the length of the hashed bytes,
separating serializations of different content in concrete
evaluations. -/
def lenHash : String → List Nat → String := fun _ bs => toString bs.length

/-- Concrete delegate for `remember` evaluations. -/
def constCallback : List PyObj → List (String × PyObj) → Nat := fun _ _ => 42

/-- Concrete `remember` instance over the default cache directory. -/
def rememberInst : remember Nat := remember.init constCallback "f" "./" true

/-- Concrete succeeding delegate for `debug` evaluations. -/
def okCallback : Unit → Except String Nat := fun _ => Except.ok 5

/-- Concrete failing delegate for `debug` evaluations. -/
def errCallback : Unit → Except String Nat := fun _ => Except.error "boom"

/-- World with no log files, empty standard output and the numpy
rendering-suppression toggle in its default (off) state. -/
def emptyWorld : World Unit Nat String := ⟨fun _ => none, [], false⟩

/-! ## Claims about the composer -/

/-- C1: direct invocation of the composed callable returned by `endow`
delegates unchanged to the original callable, for every callable, every
attachment mapping and every argument set; results and raised errors
(the `Except` value) coincide exactly. -/
theorem endow_call_passthrough {Args Val Err Attr : Type}
    (function : Args → Except Err Val) (fname : String)
    (attributes : List (String × AttrValue Args Val Err Attr)) (dflt : Attr)
    (args : Args) :
    (endow function fname attributes dflt).call args = function args := rfl

/-- Counterexample to C3: composing under a name that an existing member
of the wrapper already carries is not rejected — `endow` returns a
wrapper in which the reserved member `__name__` has been silently
overwritten by the attachment. -/
theorem endow_overwrites_reserved_member :
    (endow (fun _ : Unit => (Except.ok 0 : Except Unit Nat)) "f" [] 0).members "__name__"
      = some Member.builtin
    ∧ (endow (fun _ : Unit => (Except.ok 0 : Except Unit Nat)) "f"
        [("__name__", AttrValue.literal 7)] 0).members "__name__"
      = some (Member.user 7) := by
  constructor
  · simp [endow, function_members]
  · simp [endow, bindAttr]

/-- C3 amended: `endow` performs no collision check at all; whatever
member (reserved or not) the attachment name denotes, the last
attachment bound under that name silently overwrites it and composition
never fails. -/
theorem endow_no_collision_check {Args Val Err Attr : Type}
    (function : Args → Except Err Val) (fname : String)
    (attributes : List (String × AttrValue Args Val Err Attr)) (dflt : Attr)
    (name : String) (v : AttrValue Args Val Err Attr) :
    (endow function fname (attributes ++ [(name, v)]) dflt).members name
      = some (Member.user (bindAttr (fun args => function args) fname v dflt)) := by
  simp [endow, List.foldl_append]

/-! ## Claims about the memoization attachment -/

/-- With no `hash_algo` or `length` entry among the call kwargs, the
keyword capture of `get_cache_id` binds its defaults (`sha1`, 6), every
kwargs entry is serialized, and the derivation yields the 6-truncated
digest of the argument serialization. -/
theorem get_cache_id_default (hashHex : String → List Nat → String)
    (args : List PyObj) (kwargs : List (String × PyObj))
    (hkw : ∀ kv ∈ kwargs, kv.1 ≠ "hash_algo" ∧ kv.1 ≠ "length") :
    remember.get_cache_id hashHex args kwargs
      = some (strTake (hashHex "sha1"
          (to_bytes (.list args) ++ to_bytes (.dict kwargs))) 6) := by
  have h1 : kwargs.find? (fun kv => decide (kv.1 = "hash_algo")) = none :=
    List.find?_eq_none.2 (fun kv hm => by simp [(hkw kv hm).1])
  have h2 : kwargs.find? (fun kv => decide (kv.1 = "length")) = none :=
    List.find?_eq_none.2 (fun kv hm => by simp [(hkw kv hm).2])
  have h3 : kwRest kwargs = kwargs := by
    rw [kwRest]
    refine List.filter_eq_self.2 (fun kv hm => ?_)
    simp [(hkw kv hm).1, (hkw kv hm).2]
  simp only [remember.get_cache_id, kwValue, h1, h2, h3, Option.map_none',
    Option.getD_none]
  simp [pyTruthy, pyIndex, pySlice, strTake]

/-- Counterexample to C4: a memoized call whose kwargs contain a key
named `length` does not derive the claimed key.  At
`kwargs = {"length": 0}` the entry is captured by the keyword-only
`length` parameter of `get_cache_id` (src/utilities.py:248,304): it is
excluded from the serialized bytes, and, being falsy, it suppresses the
truncation of the arguments digest.  Under the digest stub `lenHash`
the call persists its result at `./1854` — the arguments segment `4` is
the full digest of the kwargs-free serialization — while the path built
as the claim states (6-truncated digest of the serialization including
the `length` entry, giving segment `12`) holds no entry. -/
theorem remember_key_not_from_all_kwargs :
    (remember.main rememberInst lenHash "/abs/caller.py" noStore []
        [("length", .int 0)] none false).isSome = true
    ∧ ((remember.main rememberInst lenHash "/abs/caller.py" noStore []
        [("length", .int 0)] none false).getD (none, noStore, 0)).2.1 "./1854"
      = some 42
    ∧ ((remember.main rememberInst lenHash "/abs/caller.py" noStore []
        [("length", .int 0)] none false).getD (none, noStore, 0)).2.1
        ("." ++ "/"
          ++ (strTake (lenHash "sha1"
              (to_bytes (.list [.str "/abs/caller.py"]) ++ to_bytes (.dict []))) 6
            ++ strTake (lenHash "sha1"
              (to_bytes (.list [.str "f"]) ++ to_bytes (.dict []))) 6
            ++ strTake (lenHash "sha1"
              (to_bytes (.list []) ++ to_bytes (.dict [("length", .int 0)]))) 6))
      = none :=
  ⟨rfl, rfl, rfl⟩

/-- C4 amended: with `skip` unset, a supplied `cache_id` is used verbatim
as the cache file name under the cache directory, bypassing derivation;
with no `cache_id` and no kwargs entry named `hash_algo` or `length`
(such entries are captured by the keyword-only parameters of
`get_cache_id`, excluded from the serialized bytes, and override the
digest algorithm or the truncation of the arguments segment), the
effective key is the concatenation, in order, of three independently
truncated (6 hex chars) digests — caller-file digest, wrapped-name
digest, arguments digest — not re-hashed together.  Both parts are
stated through the observable miss behaviour: the delegate result is
persisted at exactly that path. -/
theorem remember_key_derivation {Val : Type} (r : remember Val)
    (hashHex : String → List Nat → String) (caller_abspath : String)
    (store : String → Option Val) (args : List PyObj)
    (kwargs : List (String × PyObj)) (cid : String)
    (hkw : ∀ kv ∈ kwargs, kv.1 ≠ "hash_algo" ∧ kv.1 ≠ "length")
    (hmiss : store (r.path ++ "/" ++ cid) = none)
    (hmiss2 : store (r.path ++ "/"
      ++ (strTake (hashHex "sha1"
          (to_bytes (.list [.str caller_abspath]) ++ to_bytes (.dict []))) 6
        ++ strTake (hashHex "sha1"
          (to_bytes (.list [.str r.wrapped_name]) ++ to_bytes (.dict []))) 6
        ++ strTake (hashHex "sha1"
          (to_bytes (.list args) ++ to_bytes (.dict kwargs))) 6)) = none) :
    remember.main r hashHex caller_abspath store args kwargs (some cid) false
      = some (some (r.callback args kwargs),
          fun p => if p = r.path ++ "/" ++ cid
            then some (r.callback args kwargs) else store p,
          1)
    ∧ remember.main r hashHex caller_abspath store args kwargs none false
      = some (some (r.callback args kwargs),
          fun p => if p = r.path ++ "/"
              ++ (strTake (hashHex "sha1"
                  (to_bytes (.list [.str caller_abspath]) ++ to_bytes (.dict []))) 6
                ++ strTake (hashHex "sha1"
                  (to_bytes (.list [.str r.wrapped_name]) ++ to_bytes (.dict []))) 6
                ++ strTake (hashHex "sha1"
                  (to_bytes (.list args) ++ to_bytes (.dict kwargs))) 6)
            then some (r.callback args kwargs) else store p,
          1) := by
  have hd1 := get_cache_id_default hashHex [.str caller_abspath] [] (by simp)
  have hd2 := get_cache_id_default hashHex [.str r.wrapped_name] [] (by simp)
  have hd3 := get_cache_id_default hashHex args kwargs hkw
  constructor
  · simp [remember.main, hmiss]
  · simp only [remember.main, hd1, hd2, hd3]
    simp [hmiss2]

/-- Witness for C4 (amended): a `cache_id="custom"` call on an empty
store persists the delegate result at the file literally named `custom`
under the cache directory, and a derived-key call with capture-free
kwargs persists it under the three concatenated truncated digests of the
constant digest function. -/
theorem remember_key_derivation_witness :
    noStore ("." ++ "/" ++ "custom") = none
    ∧ ((remember.main rememberInst constHash "/abs/caller.py" noStore [.int 1] []
        (some "custom") false).getD (none, noStore, 0)).2.1 "./custom" = some 42
    ∧ ((remember.main rememberInst constHash "/abs/caller.py" noStore [.int 1] []
        none false).getD (none, noStore, 0)).2.1 "./abcdefabcdefabcdef" = some 42 := by
  have h := remember_key_derivation rememberInst constHash "/abs/caller.py" noStore
    [.int 1] [] "custom" (by simp) rfl rfl
  refine ⟨rfl, ?_, ?_⟩
  · rw [h.1]
    rfl
  · rw [h.2]
    rfl

/-- Counterexample to C7: a memoized call whose kwargs carry a truthy
non-integer `length` entry is not memoized at all.  At
`kwargs = {"length": "x"}` the entry is captured by the keyword-only
`length` parameter of `get_cache_id` (src/utilities.py:248,304) and the
slice `full_hash[:length]` raises `TypeError` while deriving the key —
before the store is consulted or the delegate invoked — so the call
raises (result `none`), no output is produced, nothing is persisted, and
a second identical call raises the same way: the delegate is never
invoked and no persisted result exists to read back. -/
theorem remember_not_memoized_on_captured_kwarg :
    remember.main rememberInst constHash "/abs/caller.py" noStore []
      [("length", .str "x")] none false = none := rfl

/-- C7 amended: starting from a cache with no entry for the derived key,
and provided the key derivation succeeds (`get_cache_id` yields a key
for the call kwargs; an ill-typed captured `hash_algo`/`length` entry
instead raises on every call and nothing is memoized), two memoized
calls with value-equal arguments at the same call site and the same
wrapped callable return equal outputs, invoke the delegate exactly once
in total (only on the first call, as the returned invocation counts 1
and 0 state), and the second call returns the value the first call
persisted. -/
theorem remember_idempotent {Val : Type} (r : remember Val)
    (hashHex : String → List Nat → String) (caller_abspath : String)
    (store : String → Option Val) (args : List PyObj)
    (kwargs : List (String × PyObj)) (aid key : String)
    (hdid : remember.get_cache_id hashHex args kwargs = some aid)
    (hkey : key = strTake (hashHex "sha1"
        (to_bytes (.list [.str caller_abspath]) ++ to_bytes (.dict []))) 6
      ++ strTake (hashHex "sha1"
        (to_bytes (.list [.str r.wrapped_name]) ++ to_bytes (.dict []))) 6
      ++ aid)
    (hmiss : store (r.path ++ "/" ++ key) = none) :
    remember.main r hashHex caller_abspath store args kwargs none false
      = some (some (r.callback args kwargs),
          fun p => if p = r.path ++ "/" ++ key
            then some (r.callback args kwargs) else store p,
          1)
    ∧ remember.main r hashHex caller_abspath
        (fun p => if p = r.path ++ "/" ++ key
          then some (r.callback args kwargs) else store p)
        args kwargs none false
      = some (some (r.callback args kwargs),
          fun p => if p = r.path ++ "/" ++ key
            then some (r.callback args kwargs) else store p,
          0)
    ∧ (fun p => if p = r.path ++ "/" ++ key
        then some (r.callback args kwargs) else store p)
        (r.path ++ "/" ++ key) = some (r.callback args kwargs) := by
  have hd1 := get_cache_id_default hashHex [.str caller_abspath] [] (by simp)
  have hd2 := get_cache_id_default hashHex [.str r.wrapped_name] [] (by simp)
  subst hkey
  refine ⟨?_, ?_, ?_⟩
  · simp only [remember.main, hd1, hd2, hdid]
    simp [hmiss]
  · simp only [remember.main, hd1, hd2, hdid]
    simp
  · simp

/-- Witness for C7 (amended): two memoized calls with the argument list
`[1]` and empty kwargs on an initially empty store return 42 twice, run
the delegate only on the first call (invocation counts 1 then 0), and
the second call reads back the persisted entry. -/
theorem remember_idempotent_witness :
    remember.get_cache_id constHash [.int 1] [] = some "abcdef"
    ∧ noStore ("." ++ "/" ++ "abcdefabcdefabcdef") = none
    ∧ ((remember.main rememberInst constHash "/abs/caller.py" noStore [.int 1] []
        none false).getD (none, noStore, 0)).1 = some 42
    ∧ ((remember.main rememberInst constHash "/abs/caller.py" noStore [.int 1] []
        none false).getD (none, noStore, 0)).2.2 = 1
    ∧ ((remember.main rememberInst constHash "/abs/caller.py"
        ((remember.main rememberInst constHash "/abs/caller.py" noStore [.int 1] []
          none false).getD (none, noStore, 0)).2.1
        [.int 1] [] none false).getD (none, noStore, 0)).1 = some 42
    ∧ ((remember.main rememberInst constHash "/abs/caller.py"
        ((remember.main rememberInst constHash "/abs/caller.py" noStore [.int 1] []
          none false).getD (none, noStore, 0)).2.1
        [.int 1] [] none false).getD (none, noStore, 0)).2.2 = 0
    ∧ ((remember.main rememberInst constHash "/abs/caller.py"
        ((remember.main rememberInst constHash "/abs/caller.py" noStore [.int 1] []
          none false).getD (none, noStore, 0)).2.1
        [.int 1] [] none false).getD (none, noStore, 0)).1
      = ((remember.main rememberInst constHash "/abs/caller.py" noStore [.int 1] []
        none false).getD (none, noStore, 0)).2.1 "./abcdefabcdefabcdef" := by
  have h := remember_idempotent rememberInst constHash "/abs/caller.py" noStore
    [.int 1] [] "abcdef" "abcdefabcdefabcdef" rfl rfl rfl
  refine ⟨rfl, rfl, ?_, ?_, ?_, ?_, ?_⟩
  · simp only [h.1, Option.getD_some]
    rfl
  · simp only [h.1, Option.getD_some]
  · simp only [h.1, Option.getD_some, h.2.1]
    rfl
  · simp only [h.1, Option.getD_some, h.2.1]
  · simp only [h.1, Option.getD_some, h.2.1]
    rfl

/-! ## Claims about the instrumentation attachment -/

/-- C6: when the delegate raises, direct invocation of the composed
callable propagates the error unchanged, while the instrumented entry
point returns no value and appends the start record followed by a
failure record carrying the error to the log target (provided rotation
does not intervene at call start), with nothing propagating to the
caller. -/
theorem error_propagation_asymmetry {Args Val Err Attr : Type}
    (f : Args → Except Err Val) (fname : String)
    (attributes : List (String × AttrValue Args Val Err Attr)) (dflt : Attr)
    (d : debug Args Val Err) (w : World Args Val Err)
    (filename : String) (line_number : Nat) (args : Args)
    (debug_msg : Option String) (dt : ℚ) (e : Err)
    (hcb : d.callback = f) (herr : f args = Except.error e)
    (hroom : ∀ g, d.log_file = some g →
      ((w.files g).getD []).length < d.reset_when_lines) :
    (endow f fname attributes dflt).call args = Except.error e
    ∧ (debug.main d w filename line_number args debug_msg dt).1 = none
    ∧ debug.target d (debug.main d w filename line_number args debug_msg dt).2
      = debug.target d w
        ++ [.start d.wrapped_name filename line_number, .failed e] := by
  refine ⟨herr, ?_, ?_⟩
  · cases hlog : d.log_file with
    | none =>
      cases hna : d.no_arrays with
      | false => simp [debug.main, hcb, herr, hlog, hna]
      | true => simp [debug.main, hcb, herr, hlog, hna]
    | some g =>
      cases hna : d.no_arrays with
      | false => simp [debug.main, hcb, herr, hlog, hna]
      | true => simp [debug.main, hcb, herr, hlog, hna]
  · cases hlog : d.log_file with
    | none =>
      cases hna : d.no_arrays with
      | false => simp [debug.main, debug.emit, debug.target, hcb, herr, hlog, hna]
      | true => simp [debug.main, debug.emit, debug.target, hcb, herr, hlog, hna]
    | some g =>
      have hreset : debug.reset_maybe d w.files = w.files := by
        rw [debug.reset_maybe, hlog]
        cases hfg : w.files g with
        | none => simp [hfg]
        | some lines =>
          have hlt := hroom g hlog
          rw [hfg] at hlt
          simp only [Option.getD_some] at hlt
          simp [hfg, Nat.not_le_of_lt hlt]
      cases hna : d.no_arrays with
      | false =>
        simp [debug.main, debug.emit, debug.target, hcb, herr, hlog, hna, hreset]
      | true =>
        simp [debug.main, debug.emit, debug.target, hcb, herr, hlog, hna, hreset]

/-- Witness for C6 with a concrete failing delegate, stdout logging and
an empty world: the direct call yields the error, the instrumented call
yields no value and logs start plus failure. -/
theorem error_propagation_asymmetry_witness :
    errCallback () = Except.error "boom"
    ∧ ((endow errCallback "f" [] 0).call () = Except.error "boom"
      ∧ (debug.main (debug.init errCallback "f" none false) emptyWorld
          "caller.py" 3 () none 0).1 = none
      ∧ debug.target (debug.init errCallback "f" none false)
          (debug.main (debug.init errCallback "f" none false) emptyWorld
            "caller.py" 3 () none 0).2
        = debug.target (debug.init errCallback "f" none false) emptyWorld
          ++ [.start "f" "caller.py" 3, .failed "boom"]) :=
  ⟨rfl, error_propagation_asymmetry errCallback "f" [] 0
    (debug.init errCallback "f" none false) emptyWorld "caller.py" 3 () none 0 "boom"
    rfl rfl (fun _g h => Option.noConfusion h)⟩

/-- C2 evaluation: with `no_arrays` set, a successful instrumented call
returns from inside the `try` block before the restoration code at
src/utilities.py:188-203 runs, so the process-wide numpy
rendering-suppression state stays acquired after the call; only the
failure path restores it.  The claim that it is restored on every exit
path therefore fails on the success path. -/
theorem suppression_not_restored_on_success :
    emptyWorld.np_suppressed = false
    ∧ (debug.main (debug.init okCallback "f" none true) emptyWorld
        "caller.py" 3 () none 0).2.np_suppressed = true
    ∧ (debug.main (debug.init okCallback "f" none true) emptyWorld
        "caller.py" 3 () none 0).1 = some 5
    ∧ (debug.main (debug.init errCallback "f" none true) emptyWorld
        "caller.py" 3 () none 0).2.np_suppressed = false := by
  exact ⟨rfl, rfl, rfl, rfl⟩

/-- C8 evaluation: the DONE-line duration decomposition of
src/utilities.py:169 is arithmetically wrong.  At an elapsed time of
3600 seconds it reports 1h 59m 3541s: the hour component is `dt div
3600` as claimed, but the minute term subtracts `dt//3600` instead of
`3600*(dt//3600)` and the second term subtracts only the minutes, so
the seconds component is not below 60 and the components do not recompose
to `dt`. -/
theorem hms_decomposition_wrong :
    debug.hms 3600 = (1, 59, 3541)
    ∧ (debug.hms 3600).1 = ((⌊(3600 : ℚ) / 3600⌋ : ℤ) : ℚ)
    ∧ ¬ ((debug.hms 3600).2.2 < 60)
    ∧ ¬ (3600 * (debug.hms 3600).1 + 60 * (debug.hms 3600).2.1
        + (debug.hms 3600).2.2 = 3600) := by
  have h1 : (⌊(3600 : ℚ) / 3600⌋ : ℤ) = 1 := by
    rw [Int.floor_eq_iff]
    norm_num
  have h2 : (⌊((3600 : ℚ) - ((1 : ℤ) : ℚ)) / 60⌋ : ℤ) = 59 := by
    rw [Int.floor_eq_iff]
    norm_num
  have hh : debug.hms 3600 = (1, 59, 3541) := by
    simp only [debug.hms]
    rw [h1, h2]
    norm_num
  refine ⟨hh, ?_, ?_, ?_⟩
  · rw [hh, h1]
    norm_num
  · rw [hh]
    norm_num
  · rw [hh]
    norm_num


/-- Counterexample to C9: the `debug` constructor signature
(src/utilities.py:131) accepts only `log_file` and `no_arrays` — a
`rotation_line_threshold` keyword is not among its parameters, so
supplying one is a `TypeError` in Python — and the threshold field is
the hard-coded constant 10000 whatever configuration is supplied. -/
theorem rotation_threshold_not_a_parameter :
    ("rotation_line_threshold" ∈ debug.init_keywords) = False
    ∧ (debug.init okCallback "f" (some "debug.log") true).reset_when_lines = 10000
    ∧ (debug.init errCallback "g" none false).reset_when_lines = 10000 := by
  refine ⟨?_, rfl, rfl⟩
  simp [debug.init_keywords]

/-- C9 amended: the rotation threshold is not a configuration parameter
of the instrumentation attachment — the constructor keywords are only
`log_file` and `no_arrays` and every instance has the fixed threshold
10000 — while the rotation behaviour itself holds as claimed: with a log
target configured, the line count is taken at call start and the file is
deleted exactly when it reaches the (fixed) threshold. -/
theorem rotation_fixed_threshold {Args Val Err : Type}
    (callback : Args → Except Err Val) (wrapped_name : String)
    (log_file : Option String) (no_arrays : Bool)
    (files : String → Option (List (LogRecord Args Val Err))) (f : String) :
    ¬ "rotation_line_threshold" ∈ debug.init_keywords
    ∧ (debug.init callback wrapped_name log_file no_arrays).reset_when_lines = 10000
    ∧ debug.reset_maybe (debug.init callback wrapped_name (some f) no_arrays) files f
      = (if 10000 ≤ ((files f).getD []).length then none else files f) := by
  refine ⟨by simp [debug.init_keywords], rfl, ?_⟩
  rw [debug.reset_maybe]
  cases hfg : files f with
  | none => simp [hfg, debug.init]
  | some lines =>
    by_cases hlen : 10000 ≤ lines.length
    · simp [hfg, debug.init, hlen]
    · simp [hfg, debug.init, hlen]
